import Mathlib

/-!
Shallow embedding of the Admin-Panel-Backend tuition-log ingestion scripts.

The repository holds two near-identical batch loaders:
* `src/admin_panel_backend/database/tuition_log_injest_script.py` — the
  "destructive" variant: confirmation prompt, `DELETE FROM tuition_logs`,
  rebuild of the student map, re-insert of CSV rows, commit; attendee names
  are stripped of whitespace and of curly quote characters.
* `src/admin_panel_backend/tuition_log_injest_script.py` — the "additive"
  variant: no prompt, no delete, only whitespace stripping.

The embedding models Python strings as `String`, `dict` as an association
list with in-place update (`dictInsert`), CSV rows from `csv.DictReader`
as a structure of `Option String` fields (`none` = key absent = `KeyError`),
`int(...)`/`float(...)` as partial parsers (`pyInt?`, `parseDecimal?`;
`None` result = `ValueError`), and the database as the committed list of
rows of `tuition_logs`. Database faults (`psycopg2.Error`) are injected by
an operation-indexed fault schedule: each `cur.execute` / `conn.commit`
consumes one index, and the run raises at the scheduled index.  Because the
scripts only ever call `conn.commit()` once, at the very end, the committed
state changes exactly there; every error path leaves it untouched (explicit
`conn.rollback()` or `conn.close()` of an uncommitted transaction).
-/

namespace Ingest

/-- `dropBoth p l` removes elements satisfying `p` from both ends of `l`:
the semantics of Python `str.strip` with a character predicate. -/
def dropBoth (p : Char → Bool) (l : List Char) : List Char :=
  ((l.dropWhile p).reverse.dropWhile p).reverse

/-- Curly ("smart") quotation mark characters, the argument of the
destructive script's `.strip('“”')`. -/
def isCurly (c : Char) : Bool := c == '“' || c == '”'

/-- Python `name.strip()` — whitespace stripped from both ends. -/
def pyStrip (s : String) : String := String.mk (dropBoth Char.isWhitespace s.data)

/-- Destructive-variant name normalization: `name.strip().strip('“”')`
(line 98 of the destructive script). -/
def normalizeD (s : String) : String :=
  String.mk (dropBoth isCurly (dropBoth Char.isWhitespace s.data))

/-- Additive-variant name normalization: `name.strip()` only
(line 48 of the additive script). -/
def normalizeA (s : String) : String := pyStrip s

/-- Python `str.split(sep)` for a single-character separator, on the
character list.  `"".split(',') == ['']`, hence the base case `[[]]`. -/
def splitChars (sep : Char) : List Char → List (List Char)
  | [] => [[]]
  | c :: cs =>
    if c = sep then [] :: splitChars sep cs
    else
      match splitChars sep cs with
      | [] => [[c]]
      | h :: t => (c :: h) :: t

/-- Python `s.split(sep)` for a one-character separator. -/
def pySplit (sep : Char) (s : String) : List String :=
  (splitChars sep s.data).map String.mk

/-- Python `str.lower()` (ASCII case folding, which covers the script's
`confirm.lower() != 'yes'` check). -/
def pyLower (s : String) : String := String.mk (s.data.map Char.toLower)

/-- Value of a non-empty string of decimal digits; `none` otherwise. -/
def digitsToNat? (l : List Char) : Option Nat :=
  if l ≠ [] ∧ l.all Char.isDigit
  then some (l.foldl (fun a c => 10 * a + (c.toNat - 48)) 0)
  else none

/-- Python `int(s)`: optional surrounding whitespace, optional sign,
then decimal digits; anything else raises `ValueError` (`none`). -/
def pyInt? (s : String) : Option Int :=
  match dropBoth Char.isWhitespace s.data with
  | '+' :: ds => (digitsToNat? ds).map Int.ofNat
  | '-' :: ds => (digitsToNat? ds).map fun n => -(n : Int)
  | ds => (digitsToNat? ds).map Int.ofNat

/-- Python `float(s)` on plain decimal literals, valued exactly in `ℚ`:
optional surrounding whitespace, optional sign, digits with at most one
point and at least one digit.  Non-numeric input raises `ValueError`
(`none`). -/
def parseDecimal? (s : String) : Option ℚ :=
  let t := dropBoth Char.isWhitespace s.data
  let (sgn, u) : ℚ × List Char :=
    match t with
    | '+' :: r => (1, r)
    | '-' :: r => (-1, r)
    | r => (1, r)
  match splitChars '.' u with
  | [ip] =>
    if ip ≠ [] ∧ ip.all Char.isDigit
    then some (sgn * (ip.foldl (fun a c => 10 * a + (c.toNat - 48)) 0 : ℕ))
    else none
  | [ip, fp] =>
    if (ip ++ fp) ≠ [] ∧ ip.all Char.isDigit ∧ fp.all Char.isDigit
    then some (sgn * ((ip.foldl (fun a c => 10 * a + (c.toNat - 48)) 0 : ℕ) +
                      (fp.foldl (fun a c => 10 * a + (c.toNat - 48)) 0 : ℕ) / (10 ^ fp.length : ℕ)))
    else none
  | _ => none

/-- A row of the `students` table: `SELECT id, user_id, first_name FROM
students`.  The script immediately applies `str(...)`, so both identifiers
are strings here. -/
structure Person where
  id : String
  user_id : String
  first_name : String
deriving DecidableEq, Repr

/-- The student map built by `get_student_parent_map`: a Python dict
`first_name → (student_id, parent_user_id)` as an association list. -/
abbrev StudentMap := List (String × String × String)

/-- Python dict assignment `d[k] = v`: update in place if the key exists,
else append. -/
def dictInsert (d : List (String × String × String)) (k : String)
    (v : String × String) : List (String × String × String) :=
  match d with
  | [] => [(k, v)]
  | (k', v') :: rest =>
    if k' = k then (k, v) :: rest else (k', v') :: dictInsert rest k v

/-- Python dict lookup `d[k]` / `k in d`, as an `Option`. -/
def dictGet? (d : List (String × String × String)) (k : String) :
    Option (String × String) :=
  match d with
  | [] => none
  | (k', v) :: rest => if k' = k then some v else dictGet? rest k

/-- `get_student_parent_map`: fold the `students` rows into a dict
`{first_name: (str(id), str(user_id))}` — later rows silently overwrite
earlier ones with the same first name. -/
def get_student_parent_map (students : List Person) : StudentMap :=
  students.foldl (fun m p => dictInsert m p.first_name (p.id, p.user_id)) []

/-- One CSV record as produced by `csv.DictReader`, restricted to the
fields the scripts touch.  `none` models the key being absent from the
dict (a missing header column), so that accessing it raises `KeyError`. -/
structure CsvRow where
  date : Option String
  start_time : Option String
  end_time : Option String
  subject : Option String
  attendees : Option String
  cost_per_hour : Option String
  lesson_index : Option String
deriving DecidableEq, Repr

/-- One row of the destination `tuition_logs` table: the parameter tuple
of the scripts' `INSERT` statement. -/
structure TuitionLog where
  parent_user_id : String
  subject : String
  attendee_names : List String
  lesson_index : Option Int
  cost_per_hour : ℚ
  start_time : String
  end_time : String
deriving DecidableEq, Repr

/-- Outcome of the per-row body inside the scripts' `for row in reader`
loop.  `skippedMiss` is the student-not-found `continue` (with its
warning), `skippedInvalid` the `except (KeyError, ValueError)` `continue`
(with its warning), and `crash` an exception neither handler catches
(it would abort the whole run). -/
inductive RowResult where
  | inserted (rec : TuitionLog)
  | skippedMiss (name : String)
  | skippedInvalid
  | crash
deriving DecidableEq, Repr

/-- `int(row['lesson_index']) if row.get('lesson_index') else None`:
an absent key or empty string is falsy and yields `None`; otherwise
`int(...)` either parses or raises `ValueError` (`Except.error`). -/
def parseLesson : Option String → Except Unit (Option Int)
  | none => .ok none
  | some s =>
    if s = "" then .ok none
    else
      match pyInt? s with
      | some n => .ok (some n)
      | none => .error ()

/-- The lookup key a row's `attendees` field yields: first element of the
split-and-normalized name list (`attendee_names[0]`). -/
def firstKey (normalize : String → String) (att : String) : String :=
  (((pySplit ',' att).map normalize).headD "")

/-- The body of the row loop, common to both scripts up to the name
normalization function: field accesses in source order, each failure
mapped to the `RowResult` the script produces for it. -/
def processRow (normalize : String → String) (smap : StudentMap)
    (row : CsvRow) : RowResult :=
  match row.attendees with
  | none => .skippedInvalid
  | some att =>
    let attendee_names := (pySplit ',' att).map normalize
    match attendee_names.head? with
    | none => .crash
    | some first_student_name =>
      match dictGet? smap first_student_name with
      | none => .skippedMiss first_student_name
      | some (_, parent_user_id) =>
        match row.date, row.start_time, row.end_time with
        | some d, some st, some et =>
          match parseLesson row.lesson_index with
          | .error _ => .skippedInvalid
          | .ok lesson_index =>
            match row.subject with
            | none => .skippedInvalid
            | some subject =>
              match row.cost_per_hour with
              | none => .skippedInvalid
              | some c =>
                match parseDecimal? c with
                | none => .skippedInvalid
                | some cost =>
                  .inserted ⟨parent_user_id, subject, attendee_names,
                             lesson_index, cost, d ++ " " ++ st, d ++ " " ++ et⟩
        | _, _, _ => .skippedInvalid

/-- Top-level outcome of one run of a script. -/
inductive RunOutcome where
  | noConfig
  | cancelled
  | fileError
  | dbError
  | crashed
  | success
deriving DecidableEq, Repr

/-- The `for row in reader` loop inside the transaction: skipped rows
contribute nothing, each inserted row consumes one fault-schedule index
(its `cur.execute(INSERT ...)`) and is appended to the pending transaction
state.  A scheduled fault raises `psycopg2.Error`; an uncaught row
exception aborts the run. -/
def insertLoop (normalize : String → String) (smap : StudentMap)
    (fault : Option Nat) :
    List CsvRow → Nat → List TuitionLog →
    Except RunOutcome (List TuitionLog × Nat)
  | [], opIdx, pending => .ok (pending, opIdx)
  | row :: rest, opIdx, pending =>
    match processRow normalize smap row with
    | .crash => .error .crashed
    | .skippedMiss _ => insertLoop normalize smap fault rest opIdx pending
    | .skippedInvalid => insertLoop normalize smap fault rest opIdx pending
    | .inserted rec =>
      if fault = some opIdx then .error .dbError
      else insertLoop normalize smap fault rest (opIdx + 1) (pending ++ [rec])

/-- `main` of the destructive script, up to but excluding the final state
of the table: configuration check, confirmation prompt
(`confirm.lower() != 'yes'` cancels), `DELETE FROM tuition_logs` (fault
index 0), the `students` query (index 1), CSV open (`none` =
`FileNotFoundError`), row loop (indices 2, 3, …), `conn.commit()` (next
index).  `Except.error` paths never reach `conn.commit()`, so the
committed table is untouched; `Except.ok pending` is the committed content
after the single commit — independent of the prior content, which the
`DELETE` erased inside the same transaction. -/
def destructiveCore (dbUrl : Option String) (confirm : String)
    (students : List Person) (csvRows? : Option (List CsvRow))
    (fault : Option Nat) : Except RunOutcome (List TuitionLog) :=
  match dbUrl with
  | none => .error .noConfig
  | some url =>
    if url = "" then .error .noConfig
    else if pyLower confirm ≠ "yes" then .error .cancelled
    else if fault = some 0 then .error .dbError
    else if fault = some 1 then .error .dbError
    else
      let smap := get_student_parent_map students
      match csvRows? with
      | none => .error .fileError
      | some rows =>
        match insertLoop normalizeD smap fault rows 2 [] with
        | .error o => .error o
        | .ok (pending, opIdx) =>
          if fault = some opIdx then .error .dbError
          else .ok pending

/-- `main` of the additive script: no prompt, no delete; the `students`
query is fault index 0, the inserts indices 1, 2, …, then
`conn.commit()`. -/
def additiveCore (dbUrl : Option String) (students : List Person)
    (csvRows? : Option (List CsvRow)) (fault : Option Nat) :
    Except RunOutcome (List TuitionLog) :=
  match dbUrl with
  | none => .error .noConfig
  | some url =>
    if url = "" then .error .noConfig
    else if fault = some 0 then .error .dbError
    else
      let smap := get_student_parent_map students
      match csvRows? with
      | none => .error .fileError
      | some rows =>
        match insertLoop normalizeA smap fault rows 1 [] with
        | .error o => .error o
        | .ok (pending, opIdx) =>
          if fault = some opIdx then .error .dbError
          else .ok pending

/-- The keys of a dict in insertion order. -/
abbrev dictKeys (d : List (String × String × String)) : List String := d.map Prod.fst

/-- Whether a row outcome is one of the two skip-with-warning paths. -/
def isSkip : RowResult → Bool
  | .skippedMiss _ => true
  | .skippedInvalid => true
  | _ => false

/-- The row-level error conditions named by the spec: first attendee absent
from the lookup map, a required field missing, a non-numeric
`cost_per_hour`, or a non-empty non-integer `lesson_index`. -/
def rowBad (normalize : String → String) (smap : StudentMap) (row : CsvRow) : Bool :=
  row.attendees.isNone ||
  (match row.attendees with
   | some att => (dictGet? smap (firstKey normalize att)).isNone
   | none => false) ||
  row.date.isNone || row.start_time.isNone || row.end_time.isNone ||
  row.subject.isNone || row.cost_per_hour.isNone ||
  (match row.cost_per_hour with
   | some cph => (parseDecimal? cph).isNone
   | none => false) ||
  (match row.lesson_index with
   | some s => !(s == "") && (pyInt? s).isNone
   | none => false)

/-- Everything about a row other than `lesson_index` is in order: the
attendees field is present and its first name resolves, the date, clock and
subject fields are present, and `cost_per_hour` parses. -/
def rowOtherGood (normalize : String → String) (smap : StudentMap)
    (row : CsvRow) : Bool :=
  (match row.attendees with
   | some att => (dictGet? smap (firstKey normalize att)).isSome
   | none => false) &&
  row.date.isSome && row.start_time.isSome && row.end_time.isSome &&
  row.subject.isSome &&
  (match row.cost_per_hour with
   | some cph => (parseDecimal? cph).isSome
   | none => false)

/-- A name as it appears in a CSV field when written with curly (smart)
quotes, which the `csv` module does not treat as quoting characters. -/
def curlyQuote (s : String) : String := "“" ++ s ++ "”"

/-- The name neither starts nor ends with whitespace or a curly quote —
the normal shape of a bare attendee name. -/
def edgeClean (s : String) : Bool :=
  (match s.data.head? with
   | none => true
   | some ch => !(ch.isWhitespace || isCurly ch)) &&
  (match s.data.getLast? with
   | none => true
   | some ch => !(ch.isWhitespace || isCurly ch))

/-- Observable result of one run: the committed content of `tuition_logs`
afterwards, the outcome, and the rows this run contributed. -/
structure RunResult where
  finalDb : List TuitionLog
  outcome : RunOutcome
  inserted : List TuitionLog
deriving DecidableEq, Repr

/-- One run of the destructive script against a committed table state
`db`.  On any non-success path the transaction is rolled back (explicitly,
or implicitly by closing the uncommitted connection), so the committed
state stays `db`; on success the commit makes the pending rows the entire
table content (the `DELETE` removed everything else). -/
def runDestructive (dbUrl : Option String) (confirm : String)
    (students : List Person) (csvRows? : Option (List CsvRow))
    (fault : Option Nat) (db : List TuitionLog) : RunResult :=
  match destructiveCore dbUrl confirm students csvRows? fault with
  | .error o => ⟨db, o, []⟩
  | .ok pending => ⟨pending, .success, pending⟩

/-- One run of the additive script against a committed table state `db`:
failure leaves `db`, success appends exactly the inserted rows. -/
def runAdditive (dbUrl : Option String) (students : List Person)
    (csvRows? : Option (List CsvRow)) (fault : Option Nat)
    (db : List TuitionLog) : RunResult :=
  match additiveCore dbUrl students csvRows? fault with
  | .error o => ⟨db, o, []⟩
  | .ok ins => ⟨db ++ ins, .success, ins⟩

/-- A sample committed `tuition_logs` row, used as pre-existing table
content in concrete scenarios. -/
def sampleLog : TuitionLog :=
  ⟨"g1", "Math", ["Mila"], some 1, 60, "2025-09-04 10:00", "2025-09-04 11:30"⟩

/-- A CSV row whose first attendee is not in the student map. -/
def ghostRow : CsvRow :=
  ⟨some "2025-09-04", some "10:00", some "11:30", some "Math",
   some "Ghost", some "60.00", some "1"⟩

end Ingest

namespace Ingest

section Proofs

attribute [local semireducible] Rat.mul Rat.add Rat.inv Rat.sub Rat.ofScientific

/-- Looking a key up after a dict assignment returns the new value for that
key and is unchanged elsewhere. -/
theorem dictGet?_dictInsert (d : List (String × String × String)) (k : String)
    (v : String × String) (n : String) :
    dictGet? (dictInsert d k v) n = if k = n then some v else dictGet? d n := by
  induction d with
  | nil => simp [dictInsert, dictGet?]
  | cons hd tl ih =>
    obtain ⟨k', v'⟩ := hd
    by_cases hk : k' = k
    · subst hk
      by_cases hn : k' = n <;> simp [dictInsert, dictGet?, hn]
    · by_cases hn : k' = n
      · subst hn
        simp [dictInsert, hk, dictGet?]
        rw [if_neg (fun h => hk h.symm)]
      · simp [dictInsert, hk, dictGet?, hn, ih]

/-- Dict assignment adds exactly the assigned key to the key set. -/
theorem mem_dictKeys_dictInsert (d : List (String × String × String)) (k : String)
    (v : String × String) (n : String) :
    n ∈ dictKeys (dictInsert d k v) ↔ n ∈ dictKeys d ∨ n = k := by
  induction d with
  | nil => simp [dictInsert, dictKeys]
  | cons hd tl ih =>
    obtain ⟨k', v'⟩ := hd
    by_cases hk : k' = k
    · subst hk
      have heq : dictInsert ((k', v') :: tl) k' v = (k', v) :: tl := by simp [dictInsert]
      rw [heq]
      simp only [dictKeys, List.map_cons, List.mem_cons]
      tauto
    · have heq : dictInsert ((k', v') :: tl) k v = (k', v') :: dictInsert tl k v := by
        simp [dictInsert, hk]
      rw [heq]
      simp only [dictKeys, List.map_cons, List.mem_cons] at *
      rw [ih]
      tauto

/-- Dict assignment preserves distinctness of the keys. -/
theorem nodup_dictKeys_dictInsert (d : List (String × String × String)) (k : String)
    (v : String × String) (h : (dictKeys d).Nodup) :
    (dictKeys (dictInsert d k v)).Nodup := by
  induction d with
  | nil => simp [dictInsert, dictKeys]
  | cons hd tl ih =>
    obtain ⟨k', v'⟩ := hd
    simp only [dictKeys, List.map_cons, List.nodup_cons] at h
    obtain ⟨hnot, htl⟩ := h
    by_cases hk : k' = k
    · subst hk
      have heq : dictInsert ((k', v') :: tl) k' v = (k', v) :: tl := by simp [dictInsert]
      rw [heq]
      simp only [dictKeys, List.map_cons, List.nodup_cons]
      exact ⟨hnot, htl⟩
    · have heq : dictInsert ((k', v') :: tl) k v = (k', v') :: dictInsert tl k v := by
        simp [dictInsert, hk]
      rw [heq]
      simp only [dictKeys, List.map_cons, List.nodup_cons]
      refine ⟨?_, ih htl⟩
      intro hmem
      rcases (mem_dictKeys_dictInsert tl k v k').mp hmem with h1 | h2
      · exact hnot h1
      · exact hk h2

/-- `find?` over an append looks in the left part first. -/
theorem find?_append {α : Type} (l₁ l₂ : List α) (f : α → Bool) :
    (l₁ ++ l₂).find? f = match l₁.find? f with
      | some x => some x
      | none => l₂.find? f := by
  induction l₁ with
  | nil => simp
  | cons a t ih =>
    by_cases h : f a <;> simp [List.find?, h, ih]

/-- Looking up the dict built by folding person rows over `dictInsert`
yields the value of the last row with the given first name. -/
theorem dictGet?_foldl (l : List Person) (d : List (String × String × String)) (n : String) :
    dictGet? (l.foldl (fun m p => dictInsert m p.first_name (p.id, p.user_id)) d) n =
      match l.reverse.find? (fun p => p.first_name == n) with
      | some p => some (p.id, p.user_id)
      | none => dictGet? d n := by
  induction l generalizing d with
  | nil => simp
  | cons p t ih =>
    simp only [List.foldl_cons, List.reverse_cons]
    rw [ih, find?_append]
    cases hf : t.reverse.find? (fun p => p.first_name == n) with
    | some q => simp
    | none =>
      simp only [List.find?]
      by_cases hp : p.first_name = n
      · have hb : (p.first_name == n) = true := by simp [hp]
        simp [hb, dictGet?_dictInsert, hp]
      · have hb : (p.first_name == n) = false := by simp [hp]
        simp [hb, dictGet?_dictInsert, hp]

/-- Folding person rows over `dictInsert` keeps the key set distinct. -/
theorem nodup_dictKeys_foldl (l : List Person) (d : List (String × String × String))
    (h : (dictKeys d).Nodup) :
    (dictKeys (l.foldl (fun m p => dictInsert m p.first_name (p.id, p.user_id)) d)).Nodup := by
  induction l generalizing d with
  | nil => simpa
  | cons p t ih =>
    simp only [List.foldl_cons]
    exact ih _ (nodup_dictKeys_dictInsert _ _ _ h)

/-- Python `str.split` never returns an empty list. -/
theorem splitChars_ne_nil (sep : Char) (l : List Char) : splitChars sep l ≠ [] := by
  induction l with
  | nil => simp [splitChars]
  | cons c cs ih =>
    simp only [splitChars]
    split
    · simp
    · split <;> simp

/-- The head of the split-and-normalized attendee list always exists and is
`firstKey`. -/
theorem head?_map_split (normalize : String → String) (att : String) :
    ((pySplit ',' att).map normalize).head? = some (firstKey normalize att) := by
  unfold pySplit firstKey
  cases h : splitChars ',' att.data with
  | nil => exact absurd h (splitChars_ne_nil ',' att.data)
  | cons a t => simp [pySplit, h]

/-- Variant of `head?_map_split` in the `Option.map` normal form that
`simp` produces from `List.head?_map`. -/
theorem headOptMap_split (normalize : String → String) (att : String) :
    Option.map normalize ((pySplit ',' att).head?) = some (firstKey normalize att) := by
  unfold pySplit firstKey
  cases h : splitChars ',' att.data with
  | nil => exact absurd h (splitChars_ne_nil ',' att.data)
  | cons a t => simp [pySplit, h]

/-- A skipped row contributes nothing to the insert loop: the loop result
on `row :: rest` is the result on `rest`, unchanged op counter and pending
state. -/
theorem insertLoop_skip (normalize : String → String) (smap : StudentMap)
    (fault : Option Nat) (row : CsvRow) (rest : List CsvRow) (opIdx : Nat)
    (pending : List TuitionLog)
    (h : isSkip (processRow normalize smap row) = true) :
    insertLoop normalize smap fault (row :: rest) opIdx pending
      = insertLoop normalize smap fault rest opIdx pending := by
  cases hp : processRow normalize smap row with
  | inserted r => simp [isSkip, hp] at h
  | crash => simp [isSkip, hp] at h
  | skippedMiss nm => simp [insertLoop, hp]
  | skippedInvalid => simp [insertLoop, hp]

/-- The row body never raises an exception outside the two handled kinds:
in particular `attendee_names[0]` never fails. -/
theorem processRow_ne_crash (normalize : String → String) (smap : StudentMap)
    (row : CsvRow) : processRow normalize smap row ≠ .crash := by
  obtain ⟨d, st, et, subj, att, cph, li⟩ := row
  cases att with
  | none => simp [processRow]
  | some a =>
    simp only [processRow, head?_map_split]
    cases hm : dictGet? smap (firstKey normalize a) with
    | none => simp
    | some pv =>
      obtain ⟨sid, pid⟩ := pv
      cases d <;> cases st <;> cases et <;> simp
      cases hl : parseLesson li with
      | error e => simp
      | ok lv =>
        cases subj <;> simp
        cases cph <;> simp
        split <;> simp

/-- `int('')` raises `ValueError`. -/
theorem pyInt?_empty : pyInt? "" = none := by decide

/-- Each of the row-level error conditions makes the row body take one of
the two skip-with-warning paths. -/
theorem rowBad_isSkip (smap : StudentMap) (row : CsvRow)
    (h : rowBad normalizeD smap row = true) :
    isSkip (processRow normalizeD smap row) = true := by
  obtain ⟨d, st, et, subj, att, cph, li⟩ := row
  cases att with
  | none => simp [processRow, isSkip]
  | some a =>
    simp only [processRow, head?_map_split]
    cases hm : dictGet? smap (firstKey normalizeD a) with
    | none => simp [isSkip]
    | some pv =>
      obtain ⟨sid, pid⟩ := pv
      simp only [rowBad, hm, Option.isNone_some, Option.isNone_none,
        Bool.false_or, Bool.or_eq_true] at h
      cases d with
      | none => simp [isSkip]
      | some dv =>
        cases st with
        | none => simp [isSkip]
        | some stv =>
          cases et with
          | none => simp [isSkip]
          | some etv =>
            cases hl : parseLesson li with
            | error e => simp [isSkip]
            | ok lv =>
              cases subj with
              | none => simp [isSkip]
              | some sv =>
                cases cph with
                | none => simp [isSkip]
                | some cv =>
                  cases hc : parseDecimal? cv with
                  | none => simp [hc, isSkip]
                  | some q =>
                    exfalso
                    simp only [hc, Option.isNone_some, Option.isNone_none,
                      Bool.false_or, Bool.or_eq_true] at h
                    rcases h with h | h
                    · simp at h
                    · cases li with
                      | none => simp at h
                      | some s =>
                        simp only [Bool.and_eq_true, Bool.not_eq_true',
                          beq_eq_false_iff_ne, ne_eq, Option.isNone_iff_eq_none] at h
                        obtain ⟨hs, hint⟩ := h
                        simp only [parseLesson, if_neg hs, hint] at hl
                        exact Except.noConfusion hl

/-- `dropWhile` is the identity when the head does not satisfy the
predicate. -/
theorem dropWhile_eq_self_of_head (p : Char → Bool) (l : List Char)
    (h : ∀ c ∈ l.head?, p c = false) : l.dropWhile p = l := by
  cases l with
  | nil => rfl
  | cons a t =>
    simp only [List.head?_cons, Option.mem_some_iff] at h
    simp [List.dropWhile_cons, h a rfl]

/-- Python `strip` is the identity when neither end satisfies the
predicate. -/
theorem dropBoth_eq_self (p : Char → Bool) (l : List Char)
    (h1 : ∀ c ∈ l.head?, p c = false) (h2 : ∀ c ∈ l.getLast?, p c = false) :
    dropBoth p l = l := by
  unfold dropBoth
  rw [dropWhile_eq_self_of_head p l h1]
  rw [dropWhile_eq_self_of_head p l.reverse ?_]
  · exact List.reverse_reverse l
  · intro c hc
    rw [List.head?_reverse] at hc
    exact h2 c hc

/-- Stripping curly quotes from a curly-quoted word recovers the word,
provided the word itself does not start or end with a curly quote. -/
theorem dropBoth_curly_quote (m : List Char)
    (hh : ∀ c ∈ m.head?, isCurly c = false)
    (hl : ∀ c ∈ m.getLast?, isCurly c = false) :
    dropBoth isCurly ('“' :: (m ++ ['”'])) = m := by
  unfold dropBoth
  have h1 : List.dropWhile isCurly ('“' :: (m ++ ['”']))
      = List.dropWhile isCurly (m ++ ['”']) := by
    simp [List.dropWhile_cons, isCurly]
  rw [h1]
  cases m with
  | nil => simp [List.dropWhile_cons, isCurly]
  | cons c t =>
    have hc : isCurly c = false := by
      simpa using hh c (by simp)
    rw [List.cons_append, List.dropWhile_cons, hc]
    simp only [Bool.false_eq_true, if_false]
    rw [show (c :: (t ++ ['”'])).reverse = '”' :: (c :: t).reverse by simp]
    rw [List.dropWhile_cons]
    simp only [show isCurly '”' = true by decide, if_true]
    rw [dropWhile_eq_self_of_head isCurly (c :: t).reverse ?_]
    · exact List.reverse_reverse _
    · intro x hx
      rw [List.head?_reverse] at hx
      exact hl x hx

/-- Claim C1, as stated, is false: the prompt check is
`confirm.lower() != 'yes'`, so the input `"YES"` — which is not the exact
affirmative token `"yes"` — is accepted, the run proceeds, and a
previously non-empty table ends up empty (rows were deleted). -/
theorem c1_counterexample :
    "YES" ≠ "yes" ∧
    (runDestructive (some "postgres") "YES" [] (some []) none [sampleLog]).outcome
      = .success ∧
    (runDestructive (some "postgres") "YES" [] (some []) none [sampleLog]).finalDb
      ≠ [sampleLog] := by
  refine ⟨by decide, by decide, by decide⟩

/-- Claim C1 (amended): if the confirmation input's lowercased form differs
from `"yes"` (and the connection string is configured, so the prompt is
reached), the destructive run exits as cancelled with the destination table
unchanged and zero rows inserted. -/
theorem declined_confirmation_leaves_db_unchanged (url confirm : String)
    (students : List Person) (csvRows? : Option (List CsvRow))
    (fault : Option Nat) (db : List TuitionLog)
    (h1 : url ≠ "") (h2 : pyLower confirm ≠ "yes") :
    runDestructive (some url) confirm students csvRows? fault db
      = ⟨db, .cancelled, []⟩ := by
  simp [runDestructive, destructiveCore, h1, h2]

/-- Witness for the amended C1 at the concrete input `"no"`. -/
theorem declined_confirmation_witness :
    runDestructive (some "postgres") "no" [] (some []) none [sampleLog]
      = ⟨[sampleLog], .cancelled, []⟩ :=
  declined_confirmation_leaves_db_unchanged "postgres" "no" [] (some []) none
    [sampleLog] (by decide) (by decide)

/-- Claim C2: whenever a database error is raised during the transaction
(delete, students query, any insert, or commit — any firing fault
schedule), the run rolls back and the committed destination table equals
its state before the run, in both variants. -/
theorem db_error_rolls_back (u : Option String) (c : String) (s : List Person)
    (r : Option (List CsvRow)) (f : Option Nat) (db : List TuitionLog)
    (u' : Option String) (s' : List Person) (r' : Option (List CsvRow))
    (f' : Option Nat) (db' : List TuitionLog)
    (h1 : (runDestructive u c s r f db).outcome = .dbError)
    (h2 : (runAdditive u' s' r' f' db').outcome = .dbError) :
    (runDestructive u c s r f db).finalDb = db ∧
    (runAdditive u' s' r' f' db').finalDb = db' := by
  constructor
  · cases h : destructiveCore u c s r f with
    | error o => simp [runDestructive, h]
    | ok p => simp [runDestructive, h] at h1
  · cases h : additiveCore u' s' r' f' with
    | error o => simp [runAdditive, h]
    | ok p => simp [runAdditive, h] at h2

/-- Witness for C2: a fault at the first database operation of each
variant yields a database error and leaves the table unchanged. -/
theorem db_error_rolls_back_witness :
    (runDestructive (some "postgres") "yes" [] (some []) (some 0) [sampleLog]).finalDb
      = [sampleLog] ∧
    (runAdditive (some "postgres") [] (some []) (some 0) [sampleLog]).finalDb
      = [sampleLog] :=
  db_error_rolls_back (some "postgres") "yes" [] (some []) (some 0) [sampleLog]
    (some "postgres") [] (some []) (some 0) [sampleLog] (by decide) (by decide)

/-- Claim C3: the documented example row
`2025-09-04,10:00,11:30,Math,Mila,60.00,1` with `Mila ↦ (sid, gid)`
produces, through the whole destructive run, exactly one inserted record
`(gid, Math, [Mila], 1, 60, 2025-09-04 10:00, 2025-09-04 11:30)`, the
timestamps being date ++ space ++ clock field. -/
theorem round_trip_single_row :
    runDestructive (some "postgres") "yes" [⟨"sid", "gid", "Mila"⟩]
      (some [⟨some "2025-09-04", some "10:00", some "11:30", some "Math",
              some "Mila", some "60.00", some "1"⟩]) none []
    = ⟨[⟨"gid", "Math", ["Mila"], some 1, 60,
        "2025-09-04" ++ " " ++ "10:00", "2025-09-04" ++ " " ++ "11:30"⟩],
       .success,
       [⟨"gid", "Math", ["Mila"], some 1, 60,
         "2025-09-04" ++ " " ++ "10:00", "2025-09-04" ++ " " ++ "11:30"⟩]⟩ := by
  decide

/-- Claim C4: a row whose first attendee is absent from the lookup map, or
that is missing a required field, or whose `cost_per_hour` is non-numeric,
or whose `lesson_index` is non-empty and non-integer, is skipped with a
warning (no insertion) and the loop continues with the remaining rows
exactly as if the bad row were not there — such errors never abort the
run. -/
theorem bad_row_skipped_run_continues (smap : StudentMap) (row : CsvRow)
    (fault : Option Nat) (opIdx : Nat) (pending : List TuitionLog)
    (rest : List CsvRow) (h : rowBad normalizeD smap row = true) :
    isSkip (processRow normalizeD smap row) = true ∧
    insertLoop normalizeD smap fault (row :: rest) opIdx pending
      = insertLoop normalizeD smap fault rest opIdx pending :=
  ⟨rowBad_isSkip smap row h,
   insertLoop_skip normalizeD smap fault row rest opIdx pending
     (rowBad_isSkip smap row h)⟩

/-- Witness for C4: a row whose attendee is unknown to an empty student
map is skipped and contributes nothing to the loop. -/
theorem bad_row_skipped_witness :
    isSkip (processRow normalizeD [] ghostRow) = true ∧
    insertLoop normalizeD [] none [ghostRow] 2 []
      = insertLoop normalizeD [] none [] 2 [] :=
  bad_row_skipped_run_continues [] ghostRow none 2 [] [] (by decide)

/-- Claim C5: in `get_student_parent_map`, a later person row with the same
first name silently overwrites the earlier entry — lookup returns the value
of the last row bearing the name — and the built dict has pairwise distinct
keys, i.e. exactly one entry per distinct first name. -/
theorem duplicate_first_name_last_write_wins (students : List Person) :
    (∀ n, dictGet? (get_student_parent_map students) n =
       match students.reverse.find? (fun p => p.first_name == n) with
       | some p => some (p.id, p.user_id)
       | none => none)
    ∧ (dictKeys (get_student_parent_map students)).Nodup := by
  constructor
  · intro n
    rw [get_student_parent_map, dictGet?_foldl]
    cases students.reverse.find? (fun p => p.first_name == n) <;> simp [dictGet?]
  · exact nodup_dictKeys_foldl _ _ (by simp [dictKeys])

/-- Claim C6, as stated ("in both loader variants"), is false: the additive
variant only strips whitespace, so the curly-quoted form of `Mila` yields
the lookup key `“Mila”`, not `Mila`. -/
theorem c6_counterexample :
    normalizeA "“Mila”" ≠ normalizeA "Mila" ∧
    normalizeA (curlyQuote "Mila") ≠ "Mila" := by
  refine ⟨by decide, by decide⟩

/-- Claim C6 (amended): in the destructive variant, normalizing the
curly-quoted form of a name yields the same lookup key as the bare
(straight-quote-free, as the `csv` module delivers it) form, for every name
that does not itself start or end with whitespace or a curly quote. -/
theorem curly_quote_same_key_destructive (n : String) (h : edgeClean n = true) :
    normalizeD (curlyQuote n) = normalizeD n ∧ normalizeD (curlyQuote n) = n := by
  simp only [edgeClean, Bool.and_eq_true] at h
  obtain ⟨hh, hl⟩ := h
  have hh' : ∀ c ∈ n.data.head?, (c.isWhitespace || isCurly c) = false := by
    intro c hc
    cases hx : n.data.head? with
    | none => rw [hx] at hc; exact absurd hc (by simp)
    | some ch =>
      rw [hx] at hc
      simp only [Option.mem_some_iff] at hc
      subst hc
      rw [hx] at hh
      simpa using hh
  have hl' : ∀ c ∈ n.data.getLast?, (c.isWhitespace || isCurly c) = false := by
    intro c hc
    cases hx : n.data.getLast? with
    | none => rw [hx] at hc; exact absurd hc (by simp)
    | some ch =>
      rw [hx] at hc
      simp only [Option.mem_some_iff] at hc
      subst hc
      rw [hx] at hl
      simpa using hl
  have hhw : ∀ c ∈ n.data.head?, c.isWhitespace = false := by
    intro c hc
    have := hh' c hc
    simp only [Bool.or_eq_false_iff] at this
    exact this.1
  have hhc : ∀ c ∈ n.data.head?, isCurly c = false := by
    intro c hc
    have := hh' c hc
    simp only [Bool.or_eq_false_iff] at this
    exact this.2
  have hlw : ∀ c ∈ n.data.getLast?, c.isWhitespace = false := by
    intro c hc
    have := hl' c hc
    simp only [Bool.or_eq_false_iff] at this
    exact this.1
  have hlc : ∀ c ∈ n.data.getLast?, isCurly c = false := by
    intro c hc
    have := hl' c hc
    simp only [Bool.or_eq_false_iff] at this
    exact this.2
  have hdata : (curlyQuote n).data = '“' :: (n.data ++ ['”']) := by
    simp [curlyQuote, String.data_append]
  have hnorm_n : normalizeD n = n := by
    unfold normalizeD
    rw [dropBoth_eq_self Char.isWhitespace n.data hhw hlw]
    rw [dropBoth_eq_self isCurly n.data hhc hlc]
  have hws : dropBoth Char.isWhitespace ('“' :: (n.data ++ ['”']))
      = '“' :: (n.data ++ ['”']) := by
    apply dropBoth_eq_self
    · intro c hc
      simp only [List.head?_cons, Option.mem_some_iff] at hc
      subst hc
      decide
    · intro c hc
      rw [show ('“' :: (n.data ++ ['”'])) = ('“' :: n.data) ++ ['”'] by simp,
        List.getLast?_concat] at hc
      simp only [Option.mem_some_iff] at hc
      subst hc
      decide
  have hmain : normalizeD (curlyQuote n) = n := by
    unfold normalizeD
    rw [hdata, hws, dropBoth_curly_quote n.data hhc hlc]
  exact ⟨by rw [hmain, hnorm_n], hmain⟩

/-- Witness for the amended C6 at the concrete name `Mila`. -/
theorem curly_quote_same_key_witness :
    normalizeD (curlyQuote "Mila") = normalizeD "Mila" ∧
    normalizeD (curlyQuote "Mila") = "Mila" :=
  curly_quote_same_key_destructive "Mila" (by decide)

/-- Claim C7: the destructive loader is idempotent — for every initial
table state, configuration, CSV input, student set and fault schedule,
running it a second time on the first run's result leaves the table exactly
as after the first run. -/
theorem destructive_idempotent (u : Option String) (c : String)
    (s : List Person) (r : Option (List CsvRow)) (f : Option Nat)
    (db : List TuitionLog) :
    (runDestructive u c s r f (runDestructive u c s r f db).finalDb).finalDb
      = (runDestructive u c s r f db).finalDb := by
  cases h : destructiveCore u c s r f <;> simp [runDestructive, h]

/-- Claim C8: for attendees `"Mila,Omran"` with `Mila` resolving to
guardian `g1`, exactly one record is produced, attributed to `g1`, with
both names in `attendee_names`; the same record results whether or not
`Omran` is in the map (with a different guardian `g2`), so attendees after
the first are never consulted. -/
theorem first_attendee_attribution :
    processRow normalizeD [("Mila", ("s1", "g1"))]
      ⟨some "2025-09-01", some "19:00", some "20:00", some "Physics",
       some "Mila,Omran", some "60.00", some "1"⟩
    = .inserted ⟨"g1", "Physics", ["Mila", "Omran"], some 1, 60,
                 "2025-09-01 19:00", "2025-09-01 20:00"⟩ ∧
    processRow normalizeD [("Mila", ("s1", "g1")), ("Omran", ("s2", "g2"))]
      ⟨some "2025-09-01", some "19:00", some "20:00", some "Physics",
       some "Mila,Omran", some "60.00", some "1"⟩
    = .inserted ⟨"g1", "Physics", ["Mila", "Omran"], some 1, 60,
                 "2025-09-01 19:00", "2025-09-01 20:00"⟩ := by
  refine ⟨by decide, by decide⟩

/-- Claim C9: on a row that is otherwise valid, an absent or empty
`lesson_index` still yields an insertion, with a null `lesson_index`; a
value accepted by `int(...)` yields an insertion carrying that integer. -/
theorem lesson_index_optional (smap : StudentMap) (row : CsvRow)
    (hg : rowOtherGood normalizeD smap row = true) :
    ((row.lesson_index = none ∨ row.lesson_index = some "") →
       ∃ r, processRow normalizeD smap row = .inserted r ∧ r.lesson_index = none) ∧
    (∀ s n, row.lesson_index = some s → pyInt? s = some n →
       ∃ r, processRow normalizeD smap row = .inserted r ∧ r.lesson_index = some n) := by
  obtain ⟨d, st, et, subj, att, cph, li⟩ := row
  cases att with
  | none => simp [rowOtherGood] at hg
  | some a =>
    simp only [rowOtherGood, Bool.and_eq_true] at hg
    obtain ⟨⟨⟨⟨⟨h1, h2⟩, h3⟩, h4⟩, h5⟩, h6⟩ := hg
    obtain ⟨⟨sid, pid⟩, hm⟩ := Option.isSome_iff_exists.mp h1
    obtain ⟨dv, hd⟩ := Option.isSome_iff_exists.mp h2
    obtain ⟨stv, hst⟩ := Option.isSome_iff_exists.mp h3
    obtain ⟨etv, het⟩ := Option.isSome_iff_exists.mp h4
    obtain ⟨sv, hsubj⟩ := Option.isSome_iff_exists.mp h5
    cases cph with
    | none => simp at h6
    | some cv =>
      obtain ⟨q, hq⟩ := Option.isSome_iff_exists.mp h6
      subst hd hst het hsubj
      constructor
      · rintro (hli | hli) <;> subst hli <;>
          exact ⟨⟨pid, sv, (pySplit ',' a).map normalizeD, none, q,
                  dv ++ " " ++ stv, dv ++ " " ++ etv⟩,
                 by simp [processRow, head?_map_split, headOptMap_split, hm,
                      parseLesson, hq], rfl⟩
      · intro s n hli hint
        subst hli
        have hs : ¬s = "" := by
          intro hcon
          subst hcon
          rw [pyInt?_empty] at hint
          exact Option.noConfusion hint
        exact ⟨⟨pid, sv, (pySplit ',' a).map normalizeD, some n, q,
                dv ++ " " ++ stv, dv ++ " " ++ etv⟩,
               by simp [processRow, head?_map_split, headOptMap_split, hm,
                    parseLesson, if_neg hs, hint, hq], rfl⟩

/-- Witness for C9: a concrete otherwise-valid row with no `lesson_index`
is inserted with a null index. -/
theorem lesson_index_optional_witness :
    ∃ r, processRow normalizeD [("Mila", ("s1", "g1"))]
      ⟨some "2025-09-04", some "10:00", some "11:30", some "Math",
       some "Mila", some "60.00", none⟩ = .inserted r ∧ r.lesson_index = none :=
  (lesson_index_optional [("Mila", ("s1", "g1"))]
    ⟨some "2025-09-04", some "10:00", some "11:30", some "Math",
     some "Mila", some "60.00", none⟩ (by decide)).1 (Or.inl rfl)

/-- Claim C10: splitting and normalizing any attendees value yields a
non-empty list, so taking the first attendee never raises — the row body
never crashes in either variant — and in particular an empty attendees
field produces the key `""`, handled as an ordinary lookup miss. -/
theorem first_attendee_access_safe :
    (∀ (att : String), (pySplit ',' att).map normalizeD ≠ []) ∧
    (∀ (smap : StudentMap) (row : CsvRow),
       processRow normalizeD smap row ≠ .crash) ∧
    (∀ (smap : StudentMap) (row : CsvRow),
       processRow normalizeA smap row ≠ .crash) ∧
    (∀ (smap : StudentMap) (row : CsvRow), row.attendees = some "" →
       dictGet? smap "" = none → processRow normalizeD smap row = .skippedMiss "") := by
  refine ⟨?_, fun smap row => processRow_ne_crash _ _ _,
          fun smap row => processRow_ne_crash _ _ _, ?_⟩
  · intro att
    intro hcon
    have := head?_map_split normalizeD att
    rw [hcon] at this
    exact Option.noConfusion this
  · intro smap row hatt hmiss
    obtain ⟨d, st, et, subj, att, cph, li⟩ := row
    simp only at hatt
    subst hatt
    have hkey : firstKey normalizeD "" = "" := by decide
    simp [processRow, head?_map_split, headOptMap_split, hkey, hmiss]

/-- Witness for C10 at the empty attendees field and empty student map. -/
theorem first_attendee_access_safe_witness :
    processRow normalizeD [] ⟨none, none, none, none, some "", none, none⟩
      = .skippedMiss "" :=
  first_attendee_access_safe.2.2.2 []
    ⟨none, none, none, none, some "", none, none⟩ rfl rfl

end Proofs

end Ingest
